import Mathlib

/-!
A shallow embedding of the staking action handlers of
`action/protocol/staking/handlers.go` and of the Merkle Patricia trie front end
`db/trie/merklepatriciatree/merklepatriciatree.go` from lvbin2012/iotex-core,
together with theorems settling the specification claims about them.

Modelling conventions.  Machine integers (uint64 nonces, bucket indices, gas)
stay far from overflow in every scenario the claims quantify over, and the
`big.Int` amounts handled by the protocol are non-negative throughout, so both
are modelled as `Nat`; the checked subtractions of the Go code (`SubBalance`,
`SubVote`) become `Option`-valued operations that fail exactly when Go returns
an error.  Timestamps are Unix seconds as `Nat` (the `time.Unix(0,0)` sentinel
of an un-unstaked bucket is `0`).  Addresses, names and hashes are opaque
identifiers modelled as `Nat`.  Fallible Go functions returning
`(value, error)` become `Option` / `Except` values; a handler returning a Go
`error` (a fatal, unreceipted failure) is `none`.
-/

namespace IotexCore

namespace Staking

/-- Addresses are 20-byte identities compared by byte equality; modelled as
opaque `Nat` identifiers. -/
abbrev Addr := Nat

/-- Go `state.Account`: the fields the staking handlers read and write. -/
structure Account where
  balance : Nat
  nonce : Nat
deriving Repr, DecidableEq

/-- Go `VoteBucket` record (vote_bucket.go, fields per spec §3). -/
structure VoteBucket where
  candidate : Addr
  owner : Addr
  stakedAmount : Nat
  stakedDuration : Nat
  createTime : Nat
  stakeStartTime : Nat
  unstakeStartTime : Nat
  autoStake : Bool
deriving Repr, DecidableEq

/-- Go `Candidate` record (fields per handlers.go and spec §3). -/
structure Candidate where
  owner : Addr
  operator : Addr
  reward : Addr
  name : Nat
  votes : Nat
  selfStakeBucketIdx : Nat
  selfStake : Nat
deriving Repr, DecidableEq

/-- Go `Candidate.AddVote`: adds a non-negative weight to the vote total. -/
def Candidate.addVote (c : Candidate) (w : Nat) : Candidate :=
  { c with votes := c.votes + w }

/-- Go `Candidate.SubVote`: subtracts a weight, failing (Go error) when the total
would go negative. -/
def Candidate.subVote (c : Candidate) (w : Nat) : Option Candidate :=
  if w ≤ c.votes then some { c with votes := c.votes - w } else none

/-- Go `Candidate.AddSelfStake`. -/
def Candidate.addSelfStake (c : Candidate) (w : Nat) : Candidate :=
  { c with selfStake := c.selfStake + w }

/-- Go `Account.AddBalance`. -/
def Account.addBalance (a : Account) (amt : Nat) : Account :=
  { a with balance := a.balance + amt }

/-- Go `Account.SubBalance`: fails (Go error) when the balance is insufficient. -/
def Account.subBalance (a : Account) (amt : Nat) : Option Account :=
  if amt ≤ a.balance then some { a with balance := a.balance - amt } else none

/-- Modelled from the spec: `NewVoteBucket` (vote_bucket.go is not part of the
fragment).  Per spec §3 the bucket starts with `create_time = stake_start_time`
equal to the block timestamp, the zero sentinel for `unstake_start_time`, and a
duration in whole days (stored in hours here, matching `handleRestake`'s
`duration * 24 * time.Hour`). -/
def NewVoteBucket (cand owner : Addr) (amount duration ts : Nat) (autoStake : Bool) :
    VoteBucket :=
  { candidate := cand, owner := owner, stakedAmount := amount,
    stakedDuration := duration * 24, createTime := ts, stakeStartTime := ts,
    unstakeStartTime := 0, autoStake := autoStake }

/-- The candidate center's `GetByName`. -/
def getByName (center : List Candidate) (n : Nat) : Option Candidate :=
  center.find? (fun c => c.name == n)

/-- The candidate center's `GetByOwner`. -/
def getByOwner (center : List Candidate) (o : Addr) : Option Candidate :=
  center.find? (fun c => c.owner == o)

/-- The candidate center's `ContainsSelfStakingBucket`. -/
def containsSelfStakingBucket (center : List Candidate) (idx : Nat) : Bool :=
  center.any (fun c => c.selfStakeBucketIdx == idx)

/-- Modelled from the spec: the candidate center's `Upsert` (§4.4; the center's
source is not part of the fragment).  It rejects any collision on
name / operator / self-stake-bucket with a different owner, and otherwise
replaces the candidate with the same owner (or inserts a new one). -/
def centerUpsert (center : List Candidate) (c : Candidate) : Option (List Candidate) :=
  if center.any (fun d => d.owner != c.owner &&
      (d.name == c.name || d.operator == c.operator ||
        d.selfStakeBucketIdx == c.selfStakeBucketIdx)) then
    none
  else
    some ((center.filter (fun d => d.owner != c.owner)) ++ [c])

/-- The persisted staking state visible through the `StateManager`: accounts,
buckets, the voter and candidate bucket-index sets, the persisted candidates
keyed by owner, the monotone bucket counter, and the reward pool credited by
the `deposit_gas` hook (spec §3, §4.3, §6). -/
structure SState where
  accounts : Addr → Account
  buckets : Nat → Option VoteBucket
  bucketCount : Nat
  voterIdx : Addr → List Nat
  candIdx : Addr → List Nat
  candidates : Addr → Option Candidate
  rewardPool : Nat

/-- Go `accountutil.LoadAccount`: reads the caller's account (a fresh account when
none was stored; the state is a total map). -/
def loadAccount (s : SState) (a : Addr) : Account := s.accounts a

/-- Go `accountutil.StoreAccount`. -/
def storeAccount (s : SState) (a : Addr) (acc : Account) : SState :=
  { s with accounts := fun x => if x = a then acc else s.accounts x }

/-- Modelled from the spec: `getBucket` reads `bucket[i]` (§3); a missing index
is `state.ErrStateNotExist`. -/
def getBucket (s : SState) (idx : Nat) : Option VoteBucket := s.buckets idx

/-- Modelled from the spec: `putBucket` stores the bucket under the next index
`bucket_count` and bumps the counter (§3). -/
def putBucket (s : SState) (b : VoteBucket) : Nat × SState :=
  (s.bucketCount,
   { s with buckets := fun i => if i = s.bucketCount then some b else s.buckets i,
            bucketCount := s.bucketCount + 1 })

/-- Modelled from the spec: `updateBucket` overwrites `bucket[idx]` (§3). -/
def updateBucket (s : SState) (idx : Nat) (b : VoteBucket) : SState :=
  { s with buckets := fun i => if i = idx then some b else s.buckets i }

/-- Modelled from the spec: `delBucket` removes `bucket[idx]` (§3). -/
def delBucket (s : SState) (idx : Nat) : SState :=
  { s with buckets := fun i => if i = idx then none else s.buckets i }

/-- Modelled from the spec: `putVoterBucketIndex` adds `idx` to the owner's
bucket-index set (§3). -/
def putVoterBucketIndex (s : SState) (a : Addr) (idx : Nat) : SState :=
  { s with voterIdx := fun x => if x = a then (s.voterIdx a).insert idx else s.voterIdx x }

/-- Modelled from the spec: `delVoterBucketIndex` removes `idx` from the
owner's bucket-index set (§3). -/
def delVoterBucketIndex (s : SState) (a : Addr) (idx : Nat) : SState :=
  { s with voterIdx := fun x => if x = a then (s.voterIdx a).filter (fun i => i != idx)
            else s.voterIdx x }

/-- Modelled from the spec: `putCandBucketIndex` (§3). -/
def putCandBucketIndex (s : SState) (a : Addr) (idx : Nat) : SState :=
  { s with candIdx := fun x => if x = a then (s.candIdx a).insert idx else s.candIdx x }

/-- Modelled from the spec: `delCandBucketIndex` (§3). -/
def delCandBucketIndex (s : SState) (a : Addr) (idx : Nat) : SState :=
  { s with candIdx := fun x => if x = a then (s.candIdx a).filter (fun i => i != idx)
            else s.candIdx x }

/-- Modelled from the spec: `putCandidate` persists `candidate[owner]` (§3). -/
def putCandidate (s : SState) (c : Candidate) : SState :=
  { s with candidates := fun x => if x = c.owner then some c else s.candidates x }

/-- Modelled from the spec: the external `deposit_gas` hook (§6) credits the
reward pool; the register scenario of §8 (balance 1000 ending at 889 after
amount 100, fee 10 and gas 1) additionally requires the hook to debit the
caller by the deposited amount.  It fails (fatally) when the caller cannot
cover the amount. -/
def depositGas (caller : Addr) (s : SState) (amount : Nat) : Option SState :=
  if amount ≤ (s.accounts caller).balance then
    some { s with
      accounts := fun x => if x = caller then
          { s.accounts caller with balance := (s.accounts caller).balance - amount }
        else s.accounts x,
      rewardPool := s.rewardPool + amount }
  else none

/-- The receipt statuses emitted by the staking protocol (spec §6). -/
inductive ReceiptStatus where
  | success
  | failure
  | errCandidateNotExist
  | errInvalidBucketIndex
  | errUnauthorizedOperator
  | errInvalidBucketType
  | errNotEnoughBalance
  | errWithdrawBeforeUnstake
  | errWithdrawBeforeMaturity
deriving Repr, DecidableEq

/-- The `fetchError` helper type of handlers.go: a cause paired with the
receipt status to settle with (only the status is ever inspected). -/
structure FetchError where
  failureStatus : ReceiptStatus
deriving Repr, DecidableEq

/-- Go `action.Log` (topics hold `Hash256b` digests; modelled by the hashed
payloads themselves, which the claims treat as opaque values). -/
structure Log where
  address : Addr
  topics : List Nat
  data : Option Nat
  blockHeight : Nat
  actionHash : Nat
deriving Repr, DecidableEq

/-- Go `action.Receipt` with the fields settleAction populates. -/
structure Receipt where
  status : ReceiptStatus
  blockHeight : Nat
  actionHash : Nat
  gasConsumed : Nat
  contractAddress : Addr
  logs : List Log
deriving Repr, DecidableEq

/-- Per-action context (`protocol.MustGetActionCtx`). -/
structure ActionCtx where
  caller : Addr
  nonce : Nat
  gasPrice : Nat
  intrinsicGas : Nat
  actionHash : Nat
deriving Repr, DecidableEq

/-- Per-block context (`protocol.MustGetBlockCtx`). -/
structure BlockCtx where
  blockHeight : Nat
  blockTimeStamp : Nat
  gasLimit : Nat
deriving Repr, DecidableEq

/-- The protocol object: its address, the configuration the handlers read, the
vote-weight function (`calculateVoteWeight`, a deterministic function of the
bucket and the self-stake flag fixed by the chain configuration, spec §4.5),
and the in-memory candidate center. -/
structure Protocol where
  addr : Addr
  withdrawWaitingPeriod : Nat
  registrationFee : Nat
  calculateVoteWeight : VoteBucket → Bool → Nat
  inMemCandidates : List Candidate

/-- What a handler call leaves behind: the receipt, the persisted state, and
the protocol's in-memory candidate center after any `Upsert`. -/
structure HandlerOut where
  receipt : Receipt
  state : SState
  center : List Candidate

/-- Go `fetchCaller` (handlers.go:703-732): loads the caller, computes
`gas_fee = gas_price * intrinsic_gas`, and fails with `ErrNotEnoughBalance`
when `amount + gas_fee` exceeds the balance, capping the returned fee at the
balance.  (The `LoadAccount` failure branch mapping to `Failure` cannot arise
over the total-map state.) -/
def fetchCaller (actx : ActionCtx) (s : SState) (amount : Nat) :
    Except (Nat × FetchError) (Account × Nat) :=
  let caller := loadAccount s actx.caller
  let gasFee := actx.gasPrice * actx.intrinsicGas
  if caller.balance < amount + gasFee then
    Except.error
      (if caller.balance < gasFee then caller.balance else gasFee,
       { failureStatus := ReceiptStatus.errNotEnoughBalance })
  else
    Except.ok (caller, gasFee)

/-- Go `fetchBucket` (handlers.go:625-660). -/
def fetchBucket (p : Protocol) (actx : ActionCtx) (s : SState) (index : Nat)
    (checkOwner allowSelfStaking : Bool) : Except FetchError VoteBucket :=
  match getBucket s index with
  | none => Except.error { failureStatus := ReceiptStatus.errInvalidBucketIndex }
  | some bucket =>
    if checkOwner && bucket.owner != actx.caller then
      Except.error { failureStatus := ReceiptStatus.errUnauthorizedOperator }
    else if !allowSelfStaking && containsSelfStakingBucket p.inMemCandidates index then
      Except.error { failureStatus := ReceiptStatus.errInvalidBucketType }
    else
      Except.ok bucket

/-- Go `increaseNonce` (handlers.go:613-623): load the account, raise the nonce
to the action nonce when larger, store back. -/
def increaseNonce (s : SState) (addr : Addr) (nonce : Nat) : SState :=
  let acc := loadAccount s addr
  let acc := if nonce > acc.nonce then { acc with nonce := nonce } else acc
  storeAccount s addr acc

/-- Go `settleAction` (handlers.go:584-611): fatal when the block gas limit is
below the intrinsic gas; otherwise deposit the gas fee, advance the caller's
nonce, and emit the receipt. -/
def settleAction (p : Protocol) (actx : ActionCtx) (bctx : BlockCtx) (s : SState)
    (status : ReceiptStatus) (gasFee : Nat) (logs : List Log) :
    Option (Receipt × SState) :=
  if bctx.gasLimit < actx.intrinsicGas then none
  else
    match depositGas actx.caller s gasFee with
    | none => none
    | some s1 =>
      let s2 := increaseNonce s1 actx.caller actx.nonce
      some ({ status := status, blockHeight := bctx.blockHeight,
              actionHash := actx.actionHash, gasConsumed := actx.intrinsicGas,
              contractAddress := p.addr, logs := logs }, s2)

/-- Packaging of a handler's `return p.settleAction(...)`: the receipt and
settled state together with the (unchanged) candidate center. -/
def settleWrap (p : Protocol) (actx : ActionCtx) (bctx : BlockCtx) (s : SState)
    (status : ReceiptStatus) (gasFee : Nat) (logs : List Log) : Option HandlerOut :=
  match settleAction p actx bctx s status gasFee logs with
  | none => none
  | some rs => some { receipt := rs.1, state := rs.2, center := p.inMemCandidates }

/-- The repeated error pattern of every handler: settle with the failure
status and no logs. -/
def settleFail (p : Protocol) (actx : ActionCtx) (bctx : BlockCtx) (s : SState)
    (status : ReceiptStatus) (gasFee : Nat) : Option HandlerOut :=
  settleWrap p actx bctx s status gasFee []

/-- Go `Hash256b`: an injective stand-in (the claims treat topics as opaque). -/
def hash256b (n : Nat) : Nat := n

/-- The handler-name constants of handlers.go:30-49, as opaque codes. -/
def HandleCreateStake : Nat := 0

def HandleUnstake : Nat := 1

def HandleWithdrawStake : Nat := 2

def HandleChangeCandidate : Nat := 3

def HandleTransferStake : Nat := 4

def HandleDepositToStake : Nat := 5

def HandleRestake : Nat := 6

def HandleCandidateRegister : Nat := 7

def HandleCandidateUpdate : Nat := 8

/-- Go `createLog` (handlers.go:662-685). -/
def createLog (p : Protocol) (actx : ActionCtx) (bctx : BlockCtx)
    (handlerName : Nat) (candidateAddr : Option Addr) (voterAddr : Addr)
    (data : Option Nat) : Log :=
  { address := p.addr,
    topics := [hash256b handlerName] ++
      (match candidateAddr with
       | some c => [hash256b c]
       | none => []) ++ [hash256b voterAddr],
    data := data,
    blockHeight := bctx.blockHeight,
    actionHash := actx.actionHash }

/-- Go `putBucketAndIndex` (handlers.go:687-701). -/
def putBucketAndIndex (s : SState) (b : VoteBucket) : Nat × SState :=
  let pr := putBucket s b
  let s1 := putVoterBucketIndex pr.2 b.owner pr.1
  let s2 := putCandBucketIndex s1 b.candidate pr.1
  (pr.1, s2)

/-- Go `action.CreateStake` payload. -/
structure CreateStake where
  candidate : Nat
  amount : Nat
  duration : Nat
  autoStake : Bool
deriving Repr, DecidableEq

/-- Go `action.Unstake` payload. -/
structure Unstake where
  bucketIndex : Nat
deriving Repr, DecidableEq

/-- Go `action.WithdrawStake` payload. -/
structure WithdrawStake where
  bucketIndex : Nat
deriving Repr, DecidableEq

/-- Go `action.ChangeCandidate` payload. -/
structure ChangeCandidate where
  candidate : Nat
  bucketIndex : Nat
deriving Repr, DecidableEq

/-- Go `action.TransferStake` payload. -/
structure TransferStake where
  voterAddress : Addr
  bucketIndex : Nat
deriving Repr, DecidableEq

/-- Go `action.DepositToStake` payload. -/
structure DepositToStake where
  bucketIndex : Nat
  amount : Nat
deriving Repr, DecidableEq

/-- Go `action.Restake` payload. -/
structure Restake where
  bucketIndex : Nat
  duration : Nat
  autoStake : Bool
deriving Repr, DecidableEq

/-- Go `action.CandidateRegister` payload (`ownerAddress` is the optional
explicit owner). -/
structure CandidateRegister where
  name : Nat
  operator : Addr
  reward : Addr
  ownerAddress : Option Addr
  amount : Nat
  duration : Nat
  autoStake : Bool
deriving Repr, DecidableEq

/-- Go `action.CandidateUpdate` payload (empty / nil fields are `none`). -/
structure CandidateUpdate where
  name : Option Nat
  operator : Option Addr
  reward : Option Addr
deriving Repr, DecidableEq

/-- Go `handleCreateStake` (handlers.go:56-108). -/
def handleCreateStake (p : Protocol) (actx : ActionCtx) (bctx : BlockCtx)
    (act : CreateStake) (s : SState) : Option HandlerOut :=
  match fetchCaller actx s act.amount with
  | Except.error (gasFee, fe) =>
    if fe.failureStatus = ReceiptStatus.failure then none
    else settleFail p actx bctx s fe.failureStatus gasFee
  | Except.ok (staker, gasFee) =>
    match getByName p.inMemCandidates act.candidate with
    | none => settleFail p actx bctx s ReceiptStatus.errCandidateNotExist gasFee
    | some candidate =>
      let bucket := NewVoteBucket candidate.owner actx.caller act.amount act.duration
        bctx.blockTimeStamp act.autoStake
      let pr := putBucketAndIndex s bucket
      let weightedVote := p.calculateVoteWeight bucket false
      let candidate1 := candidate.addVote weightedVote
      let s2 := putCandidate pr.2 candidate1
      match staker.subBalance act.amount with
      | none => none
      | some staker1 =>
        let s3 := storeAccount s2 actx.caller staker1
        let lg := createLog p actx bctx HandleCreateStake (some candidate1.owner)
          actx.caller (some pr.1)
        match settleAction p actx bctx s3 ReceiptStatus.success gasFee [lg] with
        | none => none
        | some rs =>
          match centerUpsert p.inMemCandidates candidate1 with
          | none => none
          | some center => some { receipt := rs.1, state := rs.2, center := center }

/-- Go `handleUnstake` (handlers.go:110-163). -/
def handleUnstake (p : Protocol) (actx : ActionCtx) (bctx : BlockCtx)
    (act : Unstake) (s : SState) : Option HandlerOut :=
  match fetchCaller actx s 0 with
  | Except.error (gasFee, fe) =>
    if fe.failureStatus = ReceiptStatus.failure then none
    else settleFail p actx bctx s fe.failureStatus gasFee
  | Except.ok (_, gasFee) =>
    match fetchBucket p actx s act.bucketIndex true true with
    | Except.error fe =>
      if fe.failureStatus = ReceiptStatus.failure then none
      else settleFail p actx bctx s fe.failureStatus gasFee
    | Except.ok bucket =>
      let bucket1 := { bucket with unstakeStartTime := bctx.blockTimeStamp }
      let s1 := updateBucket s act.bucketIndex bucket1
      match getByOwner p.inMemCandidates bucket1.candidate with
      | none => none
      | some candidate =>
        let weightedVote := p.calculateVoteWeight bucket1
          (containsSelfStakingBucket p.inMemCandidates act.bucketIndex)
        match candidate.subVote weightedVote with
        | none => none
        | some candidate1 =>
          let candidate2 :=
            if containsSelfStakingBucket p.inMemCandidates act.bucketIndex then
              { candidate1 with selfStake := 0 }
            else candidate1
          let s2 := putCandidate s1 candidate2
          let lg := createLog p actx bctx HandleUnstake none actx.caller none
          match settleAction p actx bctx s2 ReceiptStatus.success gasFee [lg] with
          | none => none
          | some rs =>
            match centerUpsert p.inMemCandidates candidate2 with
            | none => none
            | some center => some { receipt := rs.1, state := rs.2, center := center }

/-- Go `handleWithdrawStake` (handlers.go:165-222). -/
def handleWithdrawStake (p : Protocol) (actx : ActionCtx) (bctx : BlockCtx)
    (act : WithdrawStake) (s : SState) : Option HandlerOut :=
  match fetchCaller actx s 0 with
  | Except.error (gasFee, fe) =>
    if fe.failureStatus = ReceiptStatus.failure then none
    else settleFail p actx bctx s fe.failureStatus gasFee
  | Except.ok (withdrawer, gasFee) =>
    match fetchBucket p actx s act.bucketIndex true true with
    | Except.error fe =>
      if fe.failureStatus = ReceiptStatus.failure then none
      else settleFail p actx bctx s fe.failureStatus gasFee
    | Except.ok bucket =>
      if bucket.unstakeStartTime = 0 then
        settleFail p actx bctx s ReceiptStatus.errWithdrawBeforeUnstake gasFee
      else if bctx.blockTimeStamp < bucket.unstakeStartTime + p.withdrawWaitingPeriod then
        settleFail p actx bctx s ReceiptStatus.errWithdrawBeforeMaturity gasFee
      else
        let s1 := delBucket s act.bucketIndex
        let s2 := delCandBucketIndex s1 bucket.candidate act.bucketIndex
        let s3 := delVoterBucketIndex s2 bucket.owner act.bucketIndex
        let withdrawer1 := withdrawer.addBalance bucket.stakedAmount
        let s4 := storeAccount s3 actx.caller withdrawer1
        let lg := createLog p actx bctx HandleWithdrawStake none actx.caller none
        settleWrap p actx bctx s4 ReceiptStatus.success gasFee [lg]

/-- Go `handleChangeCandidate` (handlers.go:224-299). -/
def handleChangeCandidate (p : Protocol) (actx : ActionCtx) (bctx : BlockCtx)
    (act : ChangeCandidate) (s : SState) : Option HandlerOut :=
  match fetchCaller actx s 0 with
  | Except.error (gasFee, fe) =>
    if fe.failureStatus = ReceiptStatus.failure then none
    else settleFail p actx bctx s fe.failureStatus gasFee
  | Except.ok (_, gasFee) =>
    match getByName p.inMemCandidates act.candidate with
    | none => settleFail p actx bctx s ReceiptStatus.errCandidateNotExist gasFee
    | some candidate =>
      match fetchBucket p actx s act.bucketIndex true false with
      | Except.error fe =>
        if fe.failureStatus = ReceiptStatus.failure then none
        else settleFail p actx bctx s fe.failureStatus gasFee
      | Except.ok bucket =>
        match getByOwner p.inMemCandidates bucket.candidate with
        | none => none
        | some prevCandidate =>
          let s1 := delCandBucketIndex s bucket.candidate act.bucketIndex
          let s2 := putCandBucketIndex s1 candidate.owner act.bucketIndex
          let bucket1 := { bucket with candidate := candidate.owner }
          let s3 := updateBucket s2 act.bucketIndex bucket1
          let weightedVotes := p.calculateVoteWeight bucket1 false
          match prevCandidate.subVote weightedVotes with
          | none => none
          | some prevCandidate1 =>
            let s4 := putCandidate s3 prevCandidate1
            let candidate1 := candidate.addVote weightedVotes
            let s5 := putCandidate s4 candidate1
            let lg := createLog p actx bctx HandleChangeCandidate
              (some candidate1.owner) actx.caller none
            match settleAction p actx bctx s5 ReceiptStatus.success gasFee [lg] with
            | none => none
            | some rs =>
              match centerUpsert p.inMemCandidates prevCandidate1 with
              | none => none
              | some center1 =>
                match centerUpsert center1 candidate1 with
                | none => none
                | some center2 => some { receipt := rs.1, state := rs.2, center := center2 }

/-- Go `handleTransferStake` (handlers.go:301-338). -/
def handleTransferStake (p : Protocol) (actx : ActionCtx) (bctx : BlockCtx)
    (act : TransferStake) (s : SState) : Option HandlerOut :=
  match fetchCaller actx s 0 with
  | Except.error (gasFee, fe) =>
    if fe.failureStatus = ReceiptStatus.failure then none
    else settleFail p actx bctx s fe.failureStatus gasFee
  | Except.ok (_, gasFee) =>
    match fetchBucket p actx s act.bucketIndex true false with
    | Except.error fe =>
      if fe.failureStatus = ReceiptStatus.failure then none
      else settleFail p actx bctx s fe.failureStatus gasFee
    | Except.ok bucket =>
      let s1 := delVoterBucketIndex s bucket.owner act.bucketIndex
      let s2 := putVoterBucketIndex s1 act.voterAddress act.bucketIndex
      let bucket1 := { bucket with owner := act.voterAddress }
      let s3 := updateBucket s2 act.bucketIndex bucket1
      let lg := createLog p actx bctx HandleTransferStake none actx.caller none
      settleWrap p actx bctx s3 ReceiptStatus.success gasFee [lg]

/-- Go `handleDepositToStake` (handlers.go:340-412). -/
def handleDepositToStake (p : Protocol) (actx : ActionCtx) (bctx : BlockCtx)
    (act : DepositToStake) (s : SState) : Option HandlerOut :=
  match fetchCaller actx s act.amount with
  | Except.error (gasFee, fe) =>
    if fe.failureStatus = ReceiptStatus.failure then none
    else settleFail p actx bctx s fe.failureStatus gasFee
  | Except.ok (depositor, gasFee) =>
    match fetchBucket p actx s act.bucketIndex false true with
    | Except.error fe =>
      if fe.failureStatus = ReceiptStatus.failure then none
      else settleFail p actx bctx s fe.failureStatus gasFee
    | Except.ok bucket =>
      if !bucket.autoStake then
        settleFail p actx bctx s ReceiptStatus.errInvalidBucketType gasFee
      else
        match getByOwner p.inMemCandidates bucket.candidate with
        | none => none
        | some candidate =>
          let prevWeightedVotes := p.calculateVoteWeight bucket
            (containsSelfStakingBucket p.inMemCandidates act.bucketIndex)
          let bucket1 := { bucket with stakedAmount := bucket.stakedAmount + act.amount }
          let s1 := updateBucket s act.bucketIndex bucket1
          match candidate.subVote prevWeightedVotes with
          | none => none
          | some candidate1 =>
            let weightedVotes := p.calculateVoteWeight bucket1
              (containsSelfStakingBucket p.inMemCandidates act.bucketIndex)
            let candidate2 := candidate1.addVote weightedVotes
            let candidate3 :=
              if containsSelfStakingBucket p.inMemCandidates act.bucketIndex then
                candidate2.addSelfStake act.amount
              else candidate2
            let s2 := putCandidate s1 candidate3
            match depositor.subBalance act.amount with
            | none => none
            | some depositor1 =>
              let s3 := storeAccount s2 actx.caller depositor1
              let lg := createLog p actx bctx HandleDepositToStake none actx.caller none
              match settleAction p actx bctx s3 ReceiptStatus.success gasFee [lg] with
              | none => none
              | some rs =>
                match centerUpsert p.inMemCandidates candidate3 with
                | none => none
                | some center => some { receipt := rs.1, state := rs.2, center := center }

/-- Go `handleRestake` (handlers.go:414-469). -/
def handleRestake (p : Protocol) (actx : ActionCtx) (bctx : BlockCtx)
    (act : Restake) (s : SState) : Option HandlerOut :=
  match fetchCaller actx s 0 with
  | Except.error (gasFee, fe) =>
    if fe.failureStatus = ReceiptStatus.failure then none
    else settleFail p actx bctx s fe.failureStatus gasFee
  | Except.ok (_, gasFee) =>
    match fetchBucket p actx s act.bucketIndex true true with
    | Except.error fe =>
      if fe.failureStatus = ReceiptStatus.failure then none
      else settleFail p actx bctx s fe.failureStatus gasFee
    | Except.ok bucket =>
      match getByOwner p.inMemCandidates bucket.candidate with
      | none => none
      | some candidate =>
        let prevWeightedVotes := p.calculateVoteWeight bucket
          (containsSelfStakingBucket p.inMemCandidates act.bucketIndex)
        let bucket1 :=
          { bucket with stakedDuration := act.duration * 24, autoStake := act.autoStake }
        let s1 := updateBucket s act.bucketIndex bucket1
        match candidate.subVote prevWeightedVotes with
        | none => none
        | some candidate1 =>
          let weightedVotes := p.calculateVoteWeight bucket1
            (containsSelfStakingBucket p.inMemCandidates act.bucketIndex)
          let candidate2 := candidate1.addVote weightedVotes
          let s2 := putCandidate s1 candidate2
          let lg := createLog p actx bctx HandleRestake none actx.caller none
          match settleAction p actx bctx s2 ReceiptStatus.success gasFee [lg] with
          | none => none
          | some rs =>
            match centerUpsert p.inMemCandidates candidate2 with
            | none => none
            | some center => some { receipt := rs.1, state := rs.2, center := center }

/-- Go `handleCandidateRegister` (handlers.go:471-534). -/
def handleCandidateRegister (p : Protocol) (actx : ActionCtx) (bctx : BlockCtx)
    (act : CandidateRegister) (s : SState) : Option HandlerOut :=
  let registrationFee := p.registrationFee
  match fetchCaller actx s (act.amount + registrationFee) with
  | Except.error (gasFee, fe) =>
    if fe.failureStatus = ReceiptStatus.failure then none
    else settleFail p actx bctx s fe.failureStatus gasFee
  | Except.ok (caller, gasFee) =>
    let owner :=
      match act.ownerAddress with
      | some o => o
      | none => actx.caller
    let bucket := NewVoteBucket owner owner act.amount act.duration
      bctx.blockTimeStamp act.autoStake
    let pr := putBucketAndIndex s bucket
    let c : Candidate :=
      { owner := owner, operator := act.operator, reward := act.reward,
        name := act.name, votes := p.calculateVoteWeight bucket true,
        selfStakeBucketIdx := pr.1, selfStake := act.amount }
    let s2 := putCandidate pr.2 c
    match caller.subBalance act.amount with
    | none => none
    | some caller1 =>
      let s3 := storeAccount s2 actx.caller caller1
      match depositGas actx.caller s3 registrationFee with
      | none => none
      | some s4 =>
        let lg := createLog p actx bctx HandleCandidateRegister (some owner)
          actx.caller (some pr.1)
        match settleAction p actx bctx s4 ReceiptStatus.success gasFee [lg] with
        | none => none
        | some rs =>
          match centerUpsert p.inMemCandidates c with
          | none => none
          | some center => some { receipt := rs.1, state := rs.2, center := center }

/-- Go `handleCandidateUpdate` (handlers.go:536-581). -/
def handleCandidateUpdate (p : Protocol) (actx : ActionCtx) (bctx : BlockCtx)
    (act : CandidateUpdate) (s : SState) : Option HandlerOut :=
  match fetchCaller actx s 0 with
  | Except.error (gasFee, fe) =>
    if fe.failureStatus = ReceiptStatus.failure then none
    else settleFail p actx bctx s fe.failureStatus gasFee
  | Except.ok (_, gasFee) =>
    match getByOwner p.inMemCandidates actx.caller with
    | none => settleFail p actx bctx s ReceiptStatus.errCandidateNotExist gasFee
    | some c0 =>
      let c1 :=
        match act.name with
        | some n => { c0 with name := n }
        | none => c0
      let c2 :=
        match act.operator with
        | some o => { c1 with operator := o }
        | none => c1
      let c3 :=
        match act.reward with
        | some r => { c2 with reward := r }
        | none => c2
      let s1 := putCandidate s c3
      let lg := createLog p actx bctx HandleCandidateUpdate none actx.caller none
      match settleAction p actx bctx s1 ReceiptStatus.success gasFee [lg] with
      | none => none
      | some rs =>
        match centerUpsert p.inMemCandidates c3 with
        | none => none
        | some center => some { receipt := rs.1, state := rs.2, center := center }

/-- The staking action sum used to quantify over all nine handlers. -/
inductive StakingAction where
  | createStake (a : CreateStake)
  | unstake (a : Unstake)
  | withdrawStake (a : WithdrawStake)
  | changeCandidate (a : ChangeCandidate)
  | transferStake (a : TransferStake)
  | depositToStake (a : DepositToStake)
  | restake (a : Restake)
  | candidateRegister (a : CandidateRegister)
  | candidateUpdate (a : CandidateUpdate)
deriving Repr, DecidableEq

/-- Dispatch of an action to its handler. -/
def handle (p : Protocol) (actx : ActionCtx) (bctx : BlockCtx)
    (act : StakingAction) (s : SState) : Option HandlerOut :=
  match act with
  | .createStake a => handleCreateStake p actx bctx a s
  | .unstake a => handleUnstake p actx bctx a s
  | .withdrawStake a => handleWithdrawStake p actx bctx a s
  | .changeCandidate a => handleChangeCandidate p actx bctx a s
  | .transferStake a => handleTransferStake p actx bctx a s
  | .depositToStake a => handleDepositToStake p actx bctx a s
  | .restake a => handleRestake p actx bctx a s
  | .candidateRegister a => handleCandidateRegister p actx bctx a s
  | .candidateUpdate a => handleCandidateUpdate p actx bctx a s

/-- The spec's guarantee for a receipted (non-`Success`) outcome (§7): the
result is exactly a gas settlement of the pre-handler state — gas deposited to
the reward pool, nonce advanced to `max(current, action)` — while buckets,
bucket indices, candidates and the bucket counter are untouched. -/
def errorSettled (p : Protocol) (actx : ActionCtx) (bctx : BlockCtx)
    (s : SState) (out : HandlerOut) : Prop :=
  (∃ gasFee, settleAction p actx bctx s out.receipt.status gasFee [] =
      some (out.receipt, out.state) ∧
    out.state.rewardPool = s.rewardPool + gasFee) ∧
  out.state.buckets = s.buckets ∧
  out.state.voterIdx = s.voterIdx ∧
  out.state.candIdx = s.candIdx ∧
  out.state.candidates = s.candidates ∧
  out.state.bucketCount = s.bucketCount ∧
  (out.state.accounts actx.caller).nonce =
    max (s.accounts actx.caller).nonce actx.nonce

/-! ### Concrete fixtures used by the witnesses -/

/-- A fresh account. -/
def emptyAccount : Account := { balance := 0, nonce := 0 }

/-- The empty staking state. -/
def emptySState : SState :=
  { accounts := fun _ => emptyAccount, buckets := fun _ => none, bucketCount := 0,
    voterIdx := fun _ => [], candIdx := fun _ => [], candidates := fun _ => none,
    rewardPool := 0 }

/-- A placeholder handler outcome for `Option.getD`. -/
def dummyOut : HandlerOut :=
  { receipt := { status := ReceiptStatus.failure, blockHeight := 0, actionHash := 0,
                 gasConsumed := 0, contractAddress := 0, logs := [] },
    state := emptySState, center := [] }

/-- A state whose sole funded account is address 1 with balance 1000. -/
def sW : SState :=
  { emptySState with
    accounts := fun a => if a = 1 then { balance := 1000, nonce := 0 } else emptyAccount }

/-- Action context: caller 1, nonce 1, gas price 1, intrinsic gas 1. -/
def actxW : ActionCtx :=
  { caller := 1, nonce := 1, gasPrice := 1, intrinsicGas := 1, actionHash := 5 }

/-- Action context of a caller whose balance (5) is below its gas fee (10). -/
def actxPoor : ActionCtx :=
  { caller := 1, nonce := 1, gasPrice := 10, intrinsicGas := 1, actionHash := 5 }

/-- A state whose account 1 holds balance 5. -/
def sPoor : SState :=
  { emptySState with
    accounts := fun a => if a = 1 then { balance := 5, nonce := 0 } else emptyAccount }

/-- Block context with ample gas limit. -/
def bctxW : BlockCtx := { blockHeight := 3, blockTimeStamp := 100, gasLimit := 1000 }

/-- Block context whose gas limit (0) is below the intrinsic gas. -/
def bctxBad : BlockCtx := { blockHeight := 3, blockTimeStamp := 100, gasLimit := 0 }

/-- Protocol with registration fee 10, waiting period 50, an empty candidate
center, and stake amount as the vote weight. -/
def pW : Protocol :=
  { addr := 99, withdrawWaitingPeriod := 50, registrationFee := 10,
    calculateVoteWeight := fun b _ => b.stakedAmount, inMemCandidates := [] }

/-- A createStake action naming an unknown candidate. -/
def actW : StakingAction :=
  StakingAction.createStake { candidate := 7, amount := 100, duration := 7, autoStake := false }

/-- The outcome of `actW` against `sW`. -/
def outW : HandlerOut := (handle pW actxW bctxW actW sW).getD dummyOut

/-- An unstaked bucket (unstake started at 60) owned by address 1, voting for
candidate 2, with stake 40. -/
def bkt4 : VoteBucket :=
  { candidate := 2, owner := 1, stakedAmount := 40, stakedDuration := 168,
    createTime := 10, stakeStartTime := 10, unstakeStartTime := 60, autoStake := false }

/-- State holding `bkt4` as bucket 0 with its two index entries. -/
def s4W : SState :=
  { sW with
    buckets := fun i => if i = 0 then some bkt4 else none, bucketCount := 1,
    voterIdx := fun a => if a = 1 then [0] else [],
    candIdx := fun a => if a = 2 then [0] else [] }

/-- Block context one instant before `bkt4` matures (60 + 50 = 110). -/
def bctxEarly : BlockCtx := { blockHeight := 3, blockTimeStamp := 109, gasLimit := 1000 }

/-- Block context exactly at `bkt4`'s maturity instant. -/
def bctxMature : BlockCtx := { blockHeight := 3, blockTimeStamp := 110, gasLimit := 1000 }

/-- A registered candidate owned by address 2 used by the deposit fixtures. -/
def cand5 : Candidate :=
  { owner := 2, operator := 3, reward := 4, name := 7, votes := 100,
    selfStakeBucketIdx := 9, selfStake := 60 }

/-- A non-auto-stake bucket owned by address 2 (not the caller). -/
def bkt5a : VoteBucket :=
  { candidate := 2, owner := 2, stakedAmount := 50, stakedDuration := 168,
    createTime := 10, stakeStartTime := 10, unstakeStartTime := 0, autoStake := false }

/-- The same bucket with `auto_stake` set. -/
def bkt5b : VoteBucket := { bkt5a with autoStake := true }

/-- Protocol whose center holds `cand5`. -/
def p5 : Protocol := { pW with inMemCandidates := [cand5] }

/-- State holding `bkt5a` as bucket 0. -/
def s5a : SState :=
  { sW with
    buckets := fun i => if i = 0 then some bkt5a else none, bucketCount := 1,
    voterIdx := fun a => if a = 2 then [0] else [],
    candIdx := fun a => if a = 2 then [0] else [] }

/-- State holding `bkt5b` as bucket 0. -/
def s5b : SState :=
  { sW with
    buckets := fun i => if i = 0 then some bkt5b else none, bucketCount := 1,
    voterIdx := fun a => if a = 2 then [0] else [],
    candIdx := fun a => if a = 2 then [0] else [] }

/-- The deposit action on bucket 0 with amount 30. -/
def act5 : DepositToStake := { bucketIndex := 0, amount := 30 }

/-- Outcome of depositing to the non-auto-stake bucket. -/
def out5a : HandlerOut := (handleDepositToStake p5 actxW bctxW act5 s5a).getD dummyOut

/-- Outcome of depositing to the auto-stake bucket. -/
def out5b : HandlerOut := (handleDepositToStake p5 actxW bctxW act5 s5b).getD dummyOut

/-- A live bucket owned by the caller (address 1), not self-staking. -/
def bkt7 : VoteBucket :=
  { candidate := 2, owner := 1, stakedAmount := 50, stakedDuration := 168,
    createTime := 10, stakeStartTime := 10, unstakeStartTime := 0, autoStake := false }

/-- State holding `bkt7` as bucket 0, indexed for owner 1 and candidate 2. -/
def s7 : SState :=
  { sW with
    buckets := fun i => if i = 0 then some bkt7 else none, bucketCount := 1,
    voterIdx := fun a => if a = 1 then [0] else [],
    candIdx := fun a => if a = 2 then [0] else [] }

/-- Transfer of bucket 0 to address 2. -/
def act7 : TransferStake := { voterAddress := 2, bucketIndex := 0 }

/-- Outcome of the transfer. -/
def out7 : HandlerOut := (handleTransferStake pW actxW bctxW act7 s7).getD dummyOut

/-- The register scenario of spec §8: amount 100, duration 7, no auto-stake,
no explicit owner. -/
def act6 : CandidateRegister :=
  { name := 7, operator := 2, reward := 3, ownerAddress := none, amount := 100,
    duration := 7, autoStake := false }

/-- Outcome of the register scenario (balance 1000, fee 10, gas 1). -/
def regOut : HandlerOut := (handleCandidateRegister pW actxW bctxW act6 sW).getD dummyOut

/-- changeCandidate to an unknown name against an invalid bucket index. -/
def act10 : ChangeCandidate := { candidate := 42, bucketIndex := 17 }

end Staking

namespace Mpt

/-- The three trie node kinds of spec §4.1 (`branch | extension | leaf`),
matching the tagged serialization the front end dispatches on. -/
inductive NodeKind where
  | branchKind
  | extensionKind
  | leafKind
deriving Repr, DecidableEq

/-- Modelled from the spec: a trie node of node.go (not part of the fragment),
abstracted to its kind and the key/value entries of the subtree it roots
(spec §4.1; keys and values are byte strings, modelled as `List Nat`). -/
structure NodeModel where
  kind : NodeKind
  entries : List (List Nat × List Nat)
deriving Repr, DecidableEq

/-- The errors surfaced by the trie front end (`trie.ErrNotExist`,
`trie.ErrInvalidTrie`, the key-length error, and a KV-store load failure). -/
inductive TrieError where
  | errInvalidKeyLength
  | errNotExist
  | errInvalidTrie
  | errLoadNode
deriving Repr, DecidableEq

/-- Go `merklePatriciaTree` (merklepatriciatree.go:40-49): the fixed key length,
the in-memory root node, the cached root hash, the KV store (composed with
`loadNode`'s deserialization, so it maps a hash to the stored node), the hash
function composed with the canonical node serialization, and the cached
empty-root-hash sentinel computed by `Start`. -/
structure MerklePatriciaTree where
  keyLength : Nat
  root : NodeModel
  rootHash : List Nat
  kvStore : List Nat → Option NodeModel
  nodeHash : NodeModel → List Nat
  emptyRootHash : List Nat

/-- Go `newEmptyRootBranchNode`: the fixed all-children-absent root branch. -/
def newEmptyRootBranchNode : NodeModel :=
  { kind := NodeKind.branchKind, entries := [] }

/-- Go `isEmptyRootHash` (merklepatriciatree.go:214-216). -/
def isEmptyRootHash (t : MerklePatriciaTree) (h : List Nat) : Bool :=
  h == t.emptyRootHash

/-- Go `RootHash` (merklepatriciatree.go:135-137). -/
def RootHash (t : MerklePatriciaTree) : List Nat := t.rootHash

/-- Go `IsEmpty` (merklepatriciatree.go:146-151). -/
def IsEmpty (t : MerklePatriciaTree) : Bool :=
  isEmptyRootHash t t.rootHash

/-- Go `resetRoot` (merklepatriciatree.go:238-248): rebind the in-memory root and
recompute the cached root hash from it. -/
def resetRoot (t : MerklePatriciaTree) (newRoot : NodeModel) : MerklePatriciaTree :=
  { t with root := newRoot, rootHash := t.nodeHash newRoot }

/-- Go `checkKeyType` (merklepatriciatree.go:250-258). -/
def checkKeyType (t : MerklePatriciaTree) (key : List Nat) : Option (List Nat) :=
  if key.length ≠ t.keyLength then none else some key

/-- Modelled from the spec: the node-level `delete(key, depth)` of spec §4.1
(node.go is not part of the fragment).  It is copy-on-write, fails (`NotFound`)
exactly when the key is absent from the subtree, and otherwise returns the
rebalanced subtree — whose root stays a branch when invoked on the root — with
the key's entry removed. -/
def nodeDelete (n : NodeModel) (key : List Nat) : Option NodeModel :=
  if n.entries.any (fun e => e.1 == key) then
    some { kind := NodeKind.branchKind,
           entries := n.entries.filter (fun e => e.1 != key) }
  else none

/-- Go `Delete` (merklepatriciatree.go:172-191), in state-passing form: the Go
method mutates the receiver and returns an error, so the model returns the
optional error together with the trie after the call. -/
def Delete (t : MerklePatriciaTree) (key : List Nat) :
    Option TrieError × MerklePatriciaTree :=
  match checkKeyType t key with
  | none => (some TrieError.errInvalidKeyLength, t)
  | some kt =>
    match nodeDelete t.root kt with
    | none => (some TrieError.errNotExist, t)
    | some newRoot => (none, resetRoot t newRoot)

/-- Go `loadNode` (merklepatriciatree.go:268-287): KV-store get plus
deserialization, collapsed into the modelled store. -/
def loadNode (t : MerklePatriciaTree) (key : List Nat) : Option NodeModel :=
  t.kvStore key

/-- Go `setRootHash` (merklepatriciatree.go:218-236): an empty or sentinel hash
reinstalls the empty root; otherwise the node is loaded from the KV store and
must be a branch (`MarkAsRoot` has no observable effect in the model). -/
def setRootHash (t : MerklePatriciaTree) (h : List Nat) :
    Except TrieError MerklePatriciaTree :=
  if h.length = 0 || isEmptyRootHash t h then
    Except.ok (resetRoot t newEmptyRootBranchNode)
  else
    match loadNode t h with
    | none => Except.error TrieError.errLoadNode
    | some node =>
      if node.kind = NodeKind.branchKind then Except.ok (resetRoot t node)
      else Except.error TrieError.errInvalidTrie

/-- Go `SetRootHash` (merklepatriciatree.go:139-144): the locked public wrapper
around `setRootHash`. -/
def SetRootHash (t : MerklePatriciaTree) (h : List Nat) :
    Except TrieError MerklePatriciaTree :=
  setRootHash t h

/-! ### Concrete fixtures used by the witnesses -/

/-- A root branch holding the single key `[1, 1]`. -/
def node8 : NodeModel :=
  { kind := NodeKind.branchKind, entries := [([1, 1], [9])] }

/-- A two-byte-key trie rooted at `node8`. -/
def t8 : MerklePatriciaTree :=
  { keyLength := 2, root := node8, rootHash := [7], kvStore := fun _ => none,
    nodeHash := fun _ => [7], emptyRootHash := [0] }

/-- A branch node holding the single key `[5]`, stored under hash `[1]`. -/
def node9 : NodeModel :=
  { kind := NodeKind.branchKind, entries := [([5], [7])] }

/-- An empty trie whose KV store holds `node9` under its own hash `[1]`; the
hash function sends `node9` to `[1]` and every other node to the
empty-root sentinel `[0]`. -/
def t9 : MerklePatriciaTree :=
  { keyLength := 1, root := newEmptyRootBranchNode, rootHash := [0],
    kvStore := fun k => if k = [1] then some node9 else none,
    nodeHash := fun n => if n = node9 then [1] else [0],
    emptyRootHash := [0] }

end Mpt

namespace Staking

/-! ### Settlement lemmas shared by several claims -/

theorem settleAction_some_spec {p : Protocol} {actx : ActionCtx} {bctx : BlockCtx}
    {s : SState} {st : ReceiptStatus} {g : Nat} {l : List Log} {r : Receipt} {s' : SState}
    (h : settleAction p actx bctx s st g l = some (r, s')) :
    r = { status := st, blockHeight := bctx.blockHeight, actionHash := actx.actionHash,
          gasConsumed := actx.intrinsicGas, contractAddress := p.addr, logs := l } ∧
    s'.accounts actx.caller =
      { balance := (s.accounts actx.caller).balance - g,
        nonce := max (s.accounts actx.caller).nonce actx.nonce } ∧
    (∀ a, a ≠ actx.caller → s'.accounts a = s.accounts a) ∧
    s'.rewardPool = s.rewardPool + g ∧
    s'.buckets = s.buckets ∧
    s'.voterIdx = s.voterIdx ∧
    s'.candIdx = s.candIdx ∧
    s'.candidates = s.candidates ∧
    s'.bucketCount = s.bucketCount ∧
    g ≤ (s.accounts actx.caller).balance ∧
    actx.intrinsicGas ≤ bctx.gasLimit := by
  simp only [settleAction] at h
  split at h
  · simp at h
  · rename_i hgl
    split at h
    · simp at h
    · rename_i s1 heq
      simp only [depositGas] at heq
      split at heq
      · rename_i hle
        simp only [Option.some.injEq] at heq
        subst heq
        simp only [Option.some.injEq, Prod.mk.injEq] at h
        obtain ⟨hr, hs⟩ := h
        subst hs
        refine ⟨hr.symm, ?_, ?_, rfl, rfl, rfl, rfl, rfl, rfl, hle, by omega⟩
        · simp only [increaseNonce, loadAccount, storeAccount]
          simp only [ite_true, eq_self_iff_true, if_true, reduceIte]
          split
          · rename_i hlt
            simp only [Account.mk.injEq]
            exact ⟨trivial, (max_eq_right (Nat.le_of_lt hlt)).symm⟩
          · rename_i hlt
            simp only [Account.mk.injEq]
            exact ⟨trivial, (max_eq_left (Nat.le_of_not_lt hlt)).symm⟩
        · intro a ha
          simp [increaseNonce, loadAccount, storeAccount, ha]
      · simp at heq

theorem settleAction_isSome (p : Protocol) (actx : ActionCtx) (bctx : BlockCtx)
    (s : SState) (st : ReceiptStatus) (g : Nat) (l : List Log)
    (hgl : actx.intrinsicGas ≤ bctx.gasLimit)
    (hbal : g ≤ (s.accounts actx.caller).balance) :
    ∃ r s', settleAction p actx bctx s st g l = some (r, s') := by
  simp only [settleAction, depositGas]
  rw [if_neg (by omega), if_pos hbal]
  exact ⟨_, _, rfl⟩

theorem settleWrap_some_spec {p : Protocol} {actx : ActionCtx} {bctx : BlockCtx}
    {s : SState} {st : ReceiptStatus} {g : Nat} {l : List Log} {out : HandlerOut}
    (h : settleWrap p actx bctx s st g l = some out) :
    settleAction p actx bctx s st g l = some (out.receipt, out.state) ∧
    out.center = p.inMemCandidates := by
  simp only [settleWrap] at h
  split at h
  · simp at h
  · rename_i rs heq
    simp only [Option.some.injEq] at h
    subst h
    exact ⟨heq, rfl⟩

theorem settleFail_errorSettled {p : Protocol} {actx : ActionCtx} {bctx : BlockCtx}
    {s : SState} {st : ReceiptStatus} {g : Nat} {out : HandlerOut}
    (h : settleFail p actx bctx s st g = some out) :
    errorSettled p actx bctx s out := by
  obtain ⟨hsa, hc⟩ := settleWrap_some_spec h
  obtain ⟨hr, hacc, hother, hpool, hbk, hvi, hci, hcand, hbc, hle, hgl⟩ :=
    settleAction_some_spec hsa
  have hst : out.receipt.status = st := by rw [hr]
  refine ⟨⟨g, ?_, hpool⟩, hbk, hvi, hci, hcand, hbc, ?_⟩
  · rw [hst]; exact hsa
  · rw [hacc]

theorem settleFail_status (p : Protocol) (actx : ActionCtx) (bctx : BlockCtx)
    (s : SState) (st : ReceiptStatus) (g : Nat)
    (hgl : actx.intrinsicGas ≤ bctx.gasLimit)
    (hbal : g ≤ (s.accounts actx.caller).balance) :
    (settleFail p actx bctx s st g).map (fun o => o.receipt.status) = some st := by
  obtain ⟨r, s', hrs⟩ := settleAction_isSome p actx bctx s st g [] hgl hbal
  have hr := (settleAction_some_spec hrs).1
  simp only [settleFail, settleWrap]
  rw [hrs]
  simp [hr]

theorem settleAction_status {p : Protocol} {actx : ActionCtx} {bctx : BlockCtx}
    {s : SState} {st : ReceiptStatus} {g : Nat} {l : List Log} {rs : Receipt × SState}
    (h : settleAction p actx bctx s st g l = some rs) :
    rs.1.status = st := by
  rw [(@settleAction_some_spec p actx bctx s st g l rs.1 rs.2 h).1]

theorem fetchCaller_ok {actx : ActionCtx} {s : SState} {amount : Nat}
    (h : amount + actx.gasPrice * actx.intrinsicGas ≤ (s.accounts actx.caller).balance) :
    fetchCaller actx s amount =
      Except.ok (s.accounts actx.caller, actx.gasPrice * actx.intrinsicGas) := by
  simp only [fetchCaller, loadAccount]
  rw [if_neg (by omega)]

theorem fetchBucket_ok {p : Protocol} {actx : ActionCtx} {s : SState} {index : Nat}
    {bucket : VoteBucket} {co ass : Bool}
    (hb : getBucket s index = some bucket)
    (hown : co = true → bucket.owner = actx.caller)
    (hss : ass = false → containsSelfStakingBucket p.inMemCandidates index = false) :
    fetchBucket p actx s index co ass = Except.ok bucket := by
  simp only [fetchBucket, hb]
  cases co
  · cases ass
    · simp [hss rfl]
    · simp
  · cases ass
    · simp [hown rfl, hss rfl]
    · simp [hown rfl]

/-! ### Claim C2 -/

/-- C2: for every caller account and required amount, `fetchCaller` returns a
`NotEnoughBalance` error together with a fee of `min(gas_fee, balance)` when
`amount + gas_fee` (with `gas_fee = gas_price * intrinsic_gas`) exceeds the
caller's balance, and otherwise returns the loaded account with the full gas
fee (handlers.go:703-732). -/
theorem fetchCaller_balance_check (actx : ActionCtx) (s : SState) (amount : Nat) :
    ((s.accounts actx.caller).balance < amount + actx.gasPrice * actx.intrinsicGas →
      fetchCaller actx s amount =
        Except.error
          (min (actx.gasPrice * actx.intrinsicGas) (s.accounts actx.caller).balance,
           { failureStatus := ReceiptStatus.errNotEnoughBalance })) ∧
    (amount + actx.gasPrice * actx.intrinsicGas ≤ (s.accounts actx.caller).balance →
      fetchCaller actx s amount =
        Except.ok (s.accounts actx.caller, actx.gasPrice * actx.intrinsicGas)) := by
  constructor
  · intro hlt
    have hmin : (if (s.accounts actx.caller).balance < actx.gasPrice * actx.intrinsicGas
        then (s.accounts actx.caller).balance else actx.gasPrice * actx.intrinsicGas) =
        min (actx.gasPrice * actx.intrinsicGas) (s.accounts actx.caller).balance := by
      split
      · rename_i hc
        exact (min_eq_right (Nat.le_of_lt hc)).symm
      · rename_i hc
        exact (min_eq_left (Nat.le_of_not_lt hc)).symm
    simp only [fetchCaller, loadAccount]
    rw [if_pos hlt, hmin]
  · intro hle
    exact fetchCaller_ok hle

/-- Witness for C2: caller with balance 5 and gas fee 10 is refused with the
capped fee, caller with balance 1000 and gas fee 1 is loaded with the full
fee. -/
theorem fetchCaller_balance_check_witness :
    fetchCaller actxPoor sPoor 0 =
      Except.error
        (min (actxPoor.gasPrice * actxPoor.intrinsicGas)
          ((sPoor.accounts actxPoor.caller).balance),
         { failureStatus := ReceiptStatus.errNotEnoughBalance }) ∧
    fetchCaller actxW sW 0 =
      Except.ok (sW.accounts actxW.caller, actxW.gasPrice * actxW.intrinsicGas) :=
  ⟨(fetchCaller_balance_check actxPoor sPoor 0).1 (by decide),
   (fetchCaller_balance_check actxW sW 0).2 (by decide)⟩

/-! ### Claim C3 -/

/-- C3: settlement fatally fails (no receipt) when the block gas limit is
below the intrinsic gas; otherwise it deposits the gas fee, sets the caller's
nonce to `max(current nonce, action nonce)`, persists the account, and returns
a receipt carrying the given status, the block height, the action hash,
`gas_consumed = intrinsic_gas`, the protocol address, and the given logs
(handlers.go:584-623). -/
theorem settleAction_contract (p : Protocol) (actx : ActionCtx) (bctx : BlockCtx)
    (s : SState) (st : ReceiptStatus) (gasFee : Nat) (logs : List Log) :
    (bctx.gasLimit < actx.intrinsicGas →
      settleAction p actx bctx s st gasFee logs = none) ∧
    (actx.intrinsicGas ≤ bctx.gasLimit →
      gasFee ≤ (s.accounts actx.caller).balance →
      ∃ s', settleAction p actx bctx s st gasFee logs =
          some ({ status := st, blockHeight := bctx.blockHeight,
                  actionHash := actx.actionHash, gasConsumed := actx.intrinsicGas,
                  contractAddress := p.addr, logs := logs }, s') ∧
        s'.accounts actx.caller =
          { balance := (s.accounts actx.caller).balance - gasFee,
            nonce := max (s.accounts actx.caller).nonce actx.nonce } ∧
        (∀ a, a ≠ actx.caller → s'.accounts a = s.accounts a) ∧
        s'.rewardPool = s.rewardPool + gasFee ∧
        s'.buckets = s.buckets ∧ s'.voterIdx = s.voterIdx ∧ s'.candIdx = s.candIdx ∧
        s'.candidates = s.candidates ∧ s'.bucketCount = s.bucketCount) := by
  constructor
  · intro hlt
    simp [settleAction, hlt]
  · intro hgl hbal
    obtain ⟨r, s', hrs⟩ := settleAction_isSome p actx bctx s st gasFee logs hgl hbal
    obtain ⟨hr, h2, h3, h4, h5, h6, h7, h8, h9, -, -⟩ := settleAction_some_spec hrs
    subst hr
    exact ⟨s', hrs, h2, h3, h4, h5, h6, h7, h8, h9⟩

/-- Witness for C3: gas limit 0 aborts settlement; gas limit 1000 settles the
fee of 1 against balance 1000 and advances the nonce from 0 to 1. -/
theorem settleAction_contract_witness :
    settleAction pW actxW bctxBad sW ReceiptStatus.success 1 [] = none ∧
    (∃ s', settleAction pW actxW bctxW sW ReceiptStatus.success 1 [] =
        some ({ status := ReceiptStatus.success, blockHeight := bctxW.blockHeight,
                actionHash := actxW.actionHash, gasConsumed := actxW.intrinsicGas,
                contractAddress := pW.addr, logs := [] }, s') ∧
      s'.accounts actxW.caller =
        { balance := (sW.accounts actxW.caller).balance - 1,
          nonce := max (sW.accounts actxW.caller).nonce actxW.nonce } ∧
      (∀ a, a ≠ actxW.caller → s'.accounts a = sW.accounts a) ∧
      s'.rewardPool = sW.rewardPool + 1 ∧
      s'.buckets = sW.buckets ∧ s'.voterIdx = sW.voterIdx ∧ s'.candIdx = sW.candIdx ∧
      s'.candidates = sW.candidates ∧ s'.bucketCount = sW.bucketCount) :=
  ⟨(settleAction_contract pW actxW bctxBad sW ReceiptStatus.success 1 []).1 (by decide),
   (settleAction_contract pW actxW bctxW sW ReceiptStatus.success 1 []).2
     (by decide) (by decide)⟩

/-! ### Claim C1 -/

theorem handleCreateStake_nonsuccess {p : Protocol} {actx : ActionCtx} {bctx : BlockCtx}
    {a : CreateStake} {s : SState} {out : HandlerOut}
    (hout : handleCreateStake p actx bctx a s = some out)
    (hns : out.receipt.status ≠ ReceiptStatus.success) :
    errorSettled p actx bctx s out := by
  simp only [handleCreateStake] at hout
  repeat' split at hout
  all_goals
    first
    | exact Option.noConfusion hout
    | exact settleFail_errorSettled hout
    | (simp only [Option.some.injEq] at hout; subst hout;
       exact absurd (settleAction_status (by assumption)) hns)
    | (obtain ⟨hsa, -⟩ := settleWrap_some_spec hout;
       exact absurd (settleAction_status hsa) hns)

theorem handleUnstake_nonsuccess {p : Protocol} {actx : ActionCtx} {bctx : BlockCtx}
    {a : Unstake} {s : SState} {out : HandlerOut}
    (hout : handleUnstake p actx bctx a s = some out)
    (hns : out.receipt.status ≠ ReceiptStatus.success) :
    errorSettled p actx bctx s out := by
  simp only [handleUnstake] at hout
  repeat' split at hout
  all_goals
    first
    | exact Option.noConfusion hout
    | exact settleFail_errorSettled hout
    | (simp only [Option.some.injEq] at hout; subst hout;
       exact absurd (settleAction_status (by assumption)) hns)
    | (obtain ⟨hsa, -⟩ := settleWrap_some_spec hout;
       exact absurd (settleAction_status hsa) hns)

theorem handleWithdrawStake_nonsuccess {p : Protocol} {actx : ActionCtx} {bctx : BlockCtx}
    {a : WithdrawStake} {s : SState} {out : HandlerOut}
    (hout : handleWithdrawStake p actx bctx a s = some out)
    (hns : out.receipt.status ≠ ReceiptStatus.success) :
    errorSettled p actx bctx s out := by
  simp only [handleWithdrawStake] at hout
  repeat' split at hout
  all_goals
    first
    | exact Option.noConfusion hout
    | exact settleFail_errorSettled hout
    | (simp only [Option.some.injEq] at hout; subst hout;
       exact absurd (settleAction_status (by assumption)) hns)
    | (obtain ⟨hsa, -⟩ := settleWrap_some_spec hout;
       exact absurd (settleAction_status hsa) hns)

theorem handleChangeCandidate_nonsuccess {p : Protocol} {actx : ActionCtx} {bctx : BlockCtx}
    {a : ChangeCandidate} {s : SState} {out : HandlerOut}
    (hout : handleChangeCandidate p actx bctx a s = some out)
    (hns : out.receipt.status ≠ ReceiptStatus.success) :
    errorSettled p actx bctx s out := by
  simp only [handleChangeCandidate] at hout
  repeat' split at hout
  all_goals
    first
    | exact Option.noConfusion hout
    | exact settleFail_errorSettled hout
    | (simp only [Option.some.injEq] at hout; subst hout;
       exact absurd (settleAction_status (by assumption)) hns)
    | (obtain ⟨hsa, -⟩ := settleWrap_some_spec hout;
       exact absurd (settleAction_status hsa) hns)

theorem handleTransferStake_nonsuccess {p : Protocol} {actx : ActionCtx} {bctx : BlockCtx}
    {a : TransferStake} {s : SState} {out : HandlerOut}
    (hout : handleTransferStake p actx bctx a s = some out)
    (hns : out.receipt.status ≠ ReceiptStatus.success) :
    errorSettled p actx bctx s out := by
  simp only [handleTransferStake] at hout
  repeat' split at hout
  all_goals
    first
    | exact Option.noConfusion hout
    | exact settleFail_errorSettled hout
    | (simp only [Option.some.injEq] at hout; subst hout;
       exact absurd (settleAction_status (by assumption)) hns)
    | (obtain ⟨hsa, -⟩ := settleWrap_some_spec hout;
       exact absurd (settleAction_status hsa) hns)

theorem handleDepositToStake_nonsuccess {p : Protocol} {actx : ActionCtx} {bctx : BlockCtx}
    {a : DepositToStake} {s : SState} {out : HandlerOut}
    (hout : handleDepositToStake p actx bctx a s = some out)
    (hns : out.receipt.status ≠ ReceiptStatus.success) :
    errorSettled p actx bctx s out := by
  simp only [handleDepositToStake] at hout
  repeat' split at hout
  all_goals
    first
    | exact Option.noConfusion hout
    | exact settleFail_errorSettled hout
    | (simp only [Option.some.injEq] at hout; subst hout;
       exact absurd (settleAction_status (by assumption)) hns)
    | (obtain ⟨hsa, -⟩ := settleWrap_some_spec hout;
       exact absurd (settleAction_status hsa) hns)

theorem handleRestake_nonsuccess {p : Protocol} {actx : ActionCtx} {bctx : BlockCtx}
    {a : Restake} {s : SState} {out : HandlerOut}
    (hout : handleRestake p actx bctx a s = some out)
    (hns : out.receipt.status ≠ ReceiptStatus.success) :
    errorSettled p actx bctx s out := by
  simp only [handleRestake] at hout
  repeat' split at hout
  all_goals
    first
    | exact Option.noConfusion hout
    | exact settleFail_errorSettled hout
    | (simp only [Option.some.injEq] at hout; subst hout;
       exact absurd (settleAction_status (by assumption)) hns)
    | (obtain ⟨hsa, -⟩ := settleWrap_some_spec hout;
       exact absurd (settleAction_status hsa) hns)

theorem handleCandidateRegister_nonsuccess {p : Protocol} {actx : ActionCtx} {bctx : BlockCtx}
    {a : CandidateRegister} {s : SState} {out : HandlerOut}
    (hout : handleCandidateRegister p actx bctx a s = some out)
    (hns : out.receipt.status ≠ ReceiptStatus.success) :
    errorSettled p actx bctx s out := by
  simp only [handleCandidateRegister] at hout
  repeat' split at hout
  all_goals
    first
    | exact Option.noConfusion hout
    | exact settleFail_errorSettled hout
    | (simp only [Option.some.injEq] at hout; subst hout;
       exact absurd (settleAction_status (by assumption)) hns)
    | (obtain ⟨hsa, -⟩ := settleWrap_some_spec hout;
       exact absurd (settleAction_status hsa) hns)

theorem handleCandidateUpdate_nonsuccess {p : Protocol} {actx : ActionCtx} {bctx : BlockCtx}
    {a : CandidateUpdate} {s : SState} {out : HandlerOut}
    (hout : handleCandidateUpdate p actx bctx a s = some out)
    (hns : out.receipt.status ≠ ReceiptStatus.success) :
    errorSettled p actx bctx s out := by
  simp only [handleCandidateUpdate] at hout
  repeat' split at hout
  all_goals
    first
    | exact Option.noConfusion hout
    | exact settleFail_errorSettled hout
    | (simp only [Option.some.injEq] at hout; subst hout;
       exact absurd (settleAction_status (by assumption)) hns)
    | (obtain ⟨hsa, -⟩ := settleWrap_some_spec hout;
       exact absurd (settleAction_status hsa) hns)

/-- C1: for every staking action handler and every action whose receipt has a
non-`Success` status, the handler still deposits gas and advances the caller's
nonce via `settleAction`, and the persisted bucket, bucket-index and candidate
state is exactly what it was before the action. -/
theorem error_receipts_settle_and_preserve_state (p : Protocol) (actx : ActionCtx)
    (bctx : BlockCtx) (act : StakingAction) (s : SState) (out : HandlerOut)
    (hout : handle p actx bctx act s = some out)
    (hns : out.receipt.status ≠ ReceiptStatus.success) :
    errorSettled p actx bctx s out := by
  cases act with
  | createStake a => exact handleCreateStake_nonsuccess hout hns
  | unstake a => exact handleUnstake_nonsuccess hout hns
  | withdrawStake a => exact handleWithdrawStake_nonsuccess hout hns
  | changeCandidate a => exact handleChangeCandidate_nonsuccess hout hns
  | transferStake a => exact handleTransferStake_nonsuccess hout hns
  | depositToStake a => exact handleDepositToStake_nonsuccess hout hns
  | restake a => exact handleRestake_nonsuccess hout hns
  | candidateRegister a => exact handleCandidateRegister_nonsuccess hout hns
  | candidateUpdate a => exact handleCandidateUpdate_nonsuccess hout hns

/-- Witness for C1: a createStake naming an unknown candidate yields an
`ErrCandidateNotExist` receipt, and the claim's conclusion holds there. -/
theorem error_receipts_settle_and_preserve_state_witness :
    handle pW actxW bctxW actW sW = some outW ∧
    outW.receipt.status ≠ ReceiptStatus.success ∧
    errorSettled pW actxW bctxW sW outW :=
  ⟨rfl, by decide,
   error_receipts_settle_and_preserve_state pW actxW bctxW actW sW outW rfl (by decide)⟩

/-! ### Claim C10 -/

/-- C10: `handleChangeCandidate` resolves the new candidate name before
fetching or authorizing the bucket, so an action naming an unknown candidate
receives an `ErrCandidateNotExist` receipt no matter what the bucket index
refers to (handlers.go:224-249). -/
theorem changeCandidate_name_resolved_first (p : Protocol) (actx : ActionCtx)
    (bctx : BlockCtx) (act : ChangeCandidate) (s : SState)
    (hname : getByName p.inMemCandidates act.candidate = none)
    (hbal : actx.gasPrice * actx.intrinsicGas ≤ (s.accounts actx.caller).balance)
    (hgl : actx.intrinsicGas ≤ bctx.gasLimit) :
    (handleChangeCandidate p actx bctx act s).map (fun o => o.receipt.status) =
      some ReceiptStatus.errCandidateNotExist := by
  have hfc : fetchCaller actx s 0 =
      Except.ok (s.accounts actx.caller, actx.gasPrice * actx.intrinsicGas) :=
    fetchCaller_ok (by omega)
  simp only [handleChangeCandidate, hfc, hname]
  exact settleFail_status p actx bctx s ReceiptStatus.errCandidateNotExist
    (actx.gasPrice * actx.intrinsicGas) hgl hbal

/-- Witness for C10: unknown name 42 with an invalid bucket index 17. -/
theorem changeCandidate_name_resolved_first_witness :
    (handleChangeCandidate pW actxW bctxW act10 sW).map (fun o => o.receipt.status) =
      some ReceiptStatus.errCandidateNotExist :=
  changeCandidate_name_resolved_first pW actxW bctxW act10 sW (by decide) (by decide)
    (by decide)

/-! ### Claim C4 -/

/-- C4: for every owned bucket, `handleWithdrawStake` reports
`WithdrawBeforeUnstake` when `unstake_start_time` is the zero sentinel,
`WithdrawBeforeMaturity` when the block timestamp is strictly before
`unstake_start_time + WithdrawWaitingPeriod`, and at or after that instant
succeeds, deleting the bucket and both indices and crediting the owner with
the staked amount (handlers.go:165-222). -/
theorem withdrawStake_timing (p : Protocol) (actx : ActionCtx) (bctx : BlockCtx)
    (act : WithdrawStake) (s : SState) (bucket : VoteBucket)
    (hb : getBucket s act.bucketIndex = some bucket)
    (hown : bucket.owner = actx.caller)
    (hbal : actx.gasPrice * actx.intrinsicGas ≤ (s.accounts actx.caller).balance)
    (hgl : actx.intrinsicGas ≤ bctx.gasLimit) :
    (bucket.unstakeStartTime = 0 →
      (handleWithdrawStake p actx bctx act s).map (fun o => o.receipt.status) =
        some ReceiptStatus.errWithdrawBeforeUnstake) ∧
    (bucket.unstakeStartTime ≠ 0 →
      bctx.blockTimeStamp < bucket.unstakeStartTime + p.withdrawWaitingPeriod →
      (handleWithdrawStake p actx bctx act s).map (fun o => o.receipt.status) =
        some ReceiptStatus.errWithdrawBeforeMaturity) ∧
    (bucket.unstakeStartTime ≠ 0 →
      bucket.unstakeStartTime + p.withdrawWaitingPeriod ≤ bctx.blockTimeStamp →
      ∃ out, handleWithdrawStake p actx bctx act s = some out ∧
        out.receipt.status = ReceiptStatus.success ∧
        out.state.buckets act.bucketIndex = none ∧
        act.bucketIndex ∉ out.state.candIdx bucket.candidate ∧
        act.bucketIndex ∉ out.state.voterIdx bucket.owner ∧
        (out.state.accounts actx.caller).balance =
          (s.accounts actx.caller).balance + bucket.stakedAmount -
            actx.gasPrice * actx.intrinsicGas) := by
  have hfc : fetchCaller actx s 0 =
      Except.ok (s.accounts actx.caller, actx.gasPrice * actx.intrinsicGas) :=
    fetchCaller_ok (by omega)
  have hfb : fetchBucket p actx s act.bucketIndex true true = Except.ok bucket :=
    fetchBucket_ok hb (fun _ => hown) (fun hcon => Bool.noConfusion hcon)
  refine ⟨?_, ?_, ?_⟩
  · intro hz
    simp only [handleWithdrawStake, hfc, hfb]
    rw [if_pos hz]
    exact settleFail_status p actx bctx s ReceiptStatus.errWithdrawBeforeUnstake
      (actx.gasPrice * actx.intrinsicGas) hgl hbal
  · intro hnz hlt
    simp only [handleWithdrawStake, hfc, hfb]
    rw [if_neg hnz, if_pos hlt]
    exact settleFail_status p actx bctx s ReceiptStatus.errWithdrawBeforeMaturity
      (actx.gasPrice * actx.intrinsicGas) hgl hbal
  · intro hnz hge
    simp only [handleWithdrawStake, hfc, hfb]
    rw [if_neg hnz, if_neg (by omega)]
    obtain ⟨r, s', hrs⟩ := settleAction_isSome p actx bctx
      (storeAccount
        (delVoterBucketIndex
          (delCandBucketIndex (delBucket s act.bucketIndex) bucket.candidate
            act.bucketIndex)
          bucket.owner act.bucketIndex)
        actx.caller ((s.accounts actx.caller).addBalance bucket.stakedAmount))
      ReceiptStatus.success (actx.gasPrice * actx.intrinsicGas)
      [createLog p actx bctx HandleWithdrawStake none actx.caller none] hgl
      (by simp [storeAccount, delVoterBucketIndex, delCandBucketIndex, delBucket,
            Account.addBalance]
          omega)
    obtain ⟨hr, hacc, hother, hpool, hbk, hvi, hci, hcand, hbc, -, -⟩ :=
      settleAction_some_spec hrs
    refine ⟨{ receipt := r, state := s', center := p.inMemCandidates }, ?_, ?_, ?_, ?_, ?_, ?_⟩
    · simp only [settleWrap]
      rw [hrs]
    · rw [hr]
    · rw [hbk]
      simp [storeAccount, delVoterBucketIndex, delCandBucketIndex, delBucket]
    · rw [hci]
      simp [storeAccount, delVoterBucketIndex, delCandBucketIndex, delBucket,
        List.mem_filter]
    · rw [hvi]
      simp [storeAccount, delVoterBucketIndex, delCandBucketIndex, delBucket,
        List.mem_filter]
    · rw [hacc]
      simp [storeAccount, delVoterBucketIndex, delCandBucketIndex, delBucket,
        Account.addBalance]

/-- Witness for C4: `bkt4` (unstaked at 60, waiting period 50) fails with
`WithdrawBeforeMaturity` at timestamp 109 and withdraws successfully at 110,
crediting owner 1 with the 40 staked (1000 + 40 - 1 = 1039). -/
theorem withdrawStake_timing_witness :
    ((handleWithdrawStake pW actxW bctxEarly { bucketIndex := 0 } s4W).map
        (fun o => o.receipt.status) =
      some ReceiptStatus.errWithdrawBeforeMaturity) ∧
    (∃ out, handleWithdrawStake pW actxW bctxMature { bucketIndex := 0 } s4W = some out ∧
      out.receipt.status = ReceiptStatus.success ∧
      out.state.buckets 0 = none ∧
      0 ∉ out.state.candIdx bkt4.candidate ∧
      0 ∉ out.state.voterIdx bkt4.owner ∧
      (out.state.accounts actxW.caller).balance =
        (s4W.accounts actxW.caller).balance + bkt4.stakedAmount -
          actxW.gasPrice * actxW.intrinsicGas) :=
  ⟨(withdrawStake_timing pW actxW bctxEarly { bucketIndex := 0 } s4W bkt4 (by decide)
      (by decide) (by decide) (by decide)).2.1 (by decide) (by decide),
   (withdrawStake_timing pW actxW bctxMature { bucketIndex := 0 } s4W bkt4 (by decide)
      (by decide) (by decide) (by decide)).2.2 (by decide) (by decide)⟩

/-! ### Claim C7 -/

/-- C7: for a non-self-staking bucket owned by the caller, a successful
`handleTransferStake` to a distinct new voter removes the index from the old
owner's voter-bucket set, adds it to the new voter's, and rebinds the bucket's
owner, while candidates and the candidate bucket-index sets are left untouched
and no vote is recomputed (handlers.go:301-338). -/
theorem transferStake_moves_owner_only (p : Protocol) (actx : ActionCtx)
    (bctx : BlockCtx) (act : TransferStake) (s : SState) (bucket : VoteBucket)
    (out : HandlerOut)
    (hb : getBucket s act.bucketIndex = some bucket)
    (hown : bucket.owner = actx.caller)
    (hss : containsSelfStakingBucket p.inMemCandidates act.bucketIndex = false)
    (hneq : act.voterAddress ≠ actx.caller)
    (hbal : actx.gasPrice * actx.intrinsicGas ≤ (s.accounts actx.caller).balance)
    (hout : handleTransferStake p actx bctx act s = some out) :
    out.receipt.status = ReceiptStatus.success ∧
    act.bucketIndex ∉ out.state.voterIdx actx.caller ∧
    act.bucketIndex ∈ out.state.voterIdx act.voterAddress ∧
    out.state.buckets act.bucketIndex = some { bucket with owner := act.voterAddress } ∧
    out.state.candidates = s.candidates ∧
    out.state.candIdx = s.candIdx ∧
    out.center = p.inMemCandidates := by
  have hfc : fetchCaller actx s 0 =
      Except.ok (s.accounts actx.caller, actx.gasPrice * actx.intrinsicGas) :=
    fetchCaller_ok (by omega)
  have hfb : fetchBucket p actx s act.bucketIndex true false = Except.ok bucket :=
    fetchBucket_ok hb (fun _ => hown) (fun _ => hss)
  simp only [handleTransferStake, hfc, hfb] at hout
  obtain ⟨hsa, hc⟩ := settleWrap_some_spec hout
  obtain ⟨hr, hacc, hother, hpool, hbk, hvi, hci, hcand, hbc, -, -⟩ :=
    settleAction_some_spec hsa
  refine ⟨by rw [hr], ?_, ?_, ?_, ?_, ?_, hc⟩
  · rw [hvi]
    simp [updateBucket, putVoterBucketIndex, delVoterBucketIndex, hown,
      Ne.symm hneq, List.mem_filter]
  · rw [hvi]
    simp [updateBucket, putVoterBucketIndex, delVoterBucketIndex,
      List.mem_insert_iff]
  · rw [hbk]
    simp [updateBucket, putVoterBucketIndex, delVoterBucketIndex]
  · rw [hcand]; rfl
  · rw [hci]; rfl

/-- Witness for C7: caller 1 transfers bucket 0 to address 2. -/
theorem transferStake_moves_owner_only_witness :
    handleTransferStake pW actxW bctxW act7 s7 = some out7 ∧
    (out7.receipt.status = ReceiptStatus.success ∧
     0 ∉ out7.state.voterIdx actxW.caller ∧
     0 ∈ out7.state.voterIdx act7.voterAddress ∧
     out7.state.buckets 0 = some { bkt7 with owner := act7.voterAddress } ∧
     out7.state.candidates = s7.candidates ∧
     out7.state.candIdx = s7.candIdx ∧
     out7.center = pW.inMemCandidates) :=
  ⟨rfl,
   transferStake_moves_owner_only pW actxW bctxW act7 s7 bkt7 out7 (by decide)
     (by decide) (by decide) (by decide) (by decide) rfl⟩

/-! ### Claim C5 -/

theorem fetchCaller_error_status {actx : ActionCtx} {s : SState} {amount g : Nat}
    {fe : FetchError}
    (h : fetchCaller actx s amount = Except.error (g, fe)) :
    fe.failureStatus = ReceiptStatus.errNotEnoughBalance := by
  simp only [fetchCaller, loadAccount] at h
  split at h
  · simp only [Except.error.injEq, Prod.mk.injEq] at h
    rw [← h.2]
  · simp at h

theorem fetchBucket_no_owner_check_status {p : Protocol} {actx : ActionCtx}
    {s : SState} {index : Nat} {ass : Bool} {fe : FetchError}
    (h : fetchBucket p actx s index false ass = Except.error fe) :
    fe.failureStatus = ReceiptStatus.errInvalidBucketIndex ∨
    fe.failureStatus = ReceiptStatus.errInvalidBucketType := by
  simp only [fetchBucket] at h
  split at h
  · simp only [Except.error.injEq] at h
    subst h
    left
    rfl
  · split at h
    · rename_i hcond
      simp at hcond
    · split at h
      · simp only [Except.error.injEq] at h
        subst h
        right
        rfl
      · simp at h

/-- C5: `handleDepositToStake` never rejects for bucket ownership, and on an
existing bucket (with a funded caller and a registered candidate) the receipt
is `ErrInvalidBucketType` exactly when the bucket is not auto-stake; on an
auto-stake bucket the staked amount grows by the deposit and the candidate's
old weighted vote is replaced by the new one (handlers.go:340-412). -/
theorem depositToStake_owner_and_bucket_type :
    (∀ (p : Protocol) (actx : ActionCtx) (bctx : BlockCtx) (act : DepositToStake)
        (s : SState) (out : HandlerOut),
      handleDepositToStake p actx bctx act s = some out →
      out.receipt.status ≠ ReceiptStatus.errUnauthorizedOperator) ∧
    (∀ (p : Protocol) (actx : ActionCtx) (bctx : BlockCtx) (act : DepositToStake)
        (s : SState) (bucket : VoteBucket) (cand : Candidate) (out : HandlerOut),
      getBucket s act.bucketIndex = some bucket →
      getByOwner p.inMemCandidates bucket.candidate = some cand →
      p.calculateVoteWeight bucket
          (containsSelfStakingBucket p.inMemCandidates act.bucketIndex) ≤ cand.votes →
      act.amount + actx.gasPrice * actx.intrinsicGas ≤ (s.accounts actx.caller).balance →
      handleDepositToStake p actx bctx act s = some out →
      ((out.receipt.status = ReceiptStatus.errInvalidBucketType ↔
          bucket.autoStake = false) ∧
       (bucket.autoStake = true →
         out.state.buckets act.bucketIndex =
           some { bucket with stakedAmount := bucket.stakedAmount + act.amount } ∧
         (out.state.candidates cand.owner).map Candidate.votes =
           some (cand.votes -
             p.calculateVoteWeight bucket
               (containsSelfStakingBucket p.inMemCandidates act.bucketIndex) +
             p.calculateVoteWeight
               { bucket with stakedAmount := bucket.stakedAmount + act.amount }
               (containsSelfStakingBucket p.inMemCandidates act.bucketIndex))))) := by
  constructor
  · intro p actx bctx act s out hout hstatus
    simp only [handleDepositToStake] at hout
    split at hout
    · rename_i gasFee fe heq
      split at hout
      · exact Option.noConfusion hout
      · obtain ⟨hsa, -⟩ := settleWrap_some_spec hout
        have hst := settleAction_status hsa
        rw [hstatus] at hst
        rw [fetchCaller_error_status heq] at hst
        exact ReceiptStatus.noConfusion hst
    · split at hout
      · rename_i fe heq
        split at hout
        · exact Option.noConfusion hout
        · obtain ⟨hsa, -⟩ := settleWrap_some_spec hout
          have hst := settleAction_status hsa
          rw [hstatus] at hst
          rcases fetchBucket_no_owner_check_status heq with hfe | hfe <;>
            (rw [hfe] at hst; exact ReceiptStatus.noConfusion hst)
      · split at hout
        · obtain ⟨hsa, -⟩ := settleWrap_some_spec hout
          have hst := settleAction_status hsa
          rw [hstatus] at hst
          exact ReceiptStatus.noConfusion hst
        · repeat' split at hout
          all_goals
            first
            | exact Option.noConfusion hout
            | (simp only [Option.some.injEq] at hout; subst hout;
               exact ReceiptStatus.noConfusion
                 (hstatus.symm.trans (settleAction_status (by assumption))))
  · intro p actx bctx act s bucket cand out hb hcand hw hbal hout
    have hfc : fetchCaller actx s act.amount =
        Except.ok (s.accounts actx.caller, actx.gasPrice * actx.intrinsicGas) :=
      fetchCaller_ok (by omega)
    have hfb : fetchBucket p actx s act.bucketIndex false true = Except.ok bucket :=
      fetchBucket_ok hb (fun hco => Bool.noConfusion hco)
        (fun hcon => Bool.noConfusion hcon)
    simp only [handleDepositToStake, hfc, hfb, hcand] at hout
    cases hauto : bucket.autoStake with
    | false =>
      rw [hauto] at hout
      simp only [Bool.not_false, eq_self_iff_true, if_true, reduceIte] at hout
      obtain ⟨hsa, -⟩ := settleWrap_some_spec hout
      have hst := settleAction_status hsa
      refine ⟨⟨fun _ => rfl, fun _ => hst⟩, fun hcon => Bool.noConfusion hcon⟩
    | true =>
      rw [hauto] at hout
      simp only [Bool.not_true, Bool.false_eq_true, if_false, reduceIte] at hout
      simp only [Candidate.subVote, if_pos hw] at hout
      simp only [Account.subBalance, if_pos (by omega :
        act.amount ≤ (s.accounts actx.caller).balance)] at hout
      split at hout
      · exact Option.noConfusion hout
      · rename_i rs hsettle
        split at hout
        · exact Option.noConfusion hout
        · rename_i center hups
          simp only [Option.some.injEq] at hout
          have hrec : out.receipt = rs.1 := by rw [← hout]
          have hstate : out.state = rs.2 := by rw [← hout]
          obtain ⟨hr, hacc, hother, hpool, hbk, hvi, hci, hcands, hbc, -, -⟩ :=
            @settleAction_some_spec _ _ _ _ _ _ _ rs.1 rs.2 hsettle
          refine ⟨⟨?_, ?_⟩, ?_⟩
          · intro hst
            rw [hrec, hr] at hst
            simp at hst
          · intro hcon
            exact Bool.noConfusion hcon
          · intro _
            refine ⟨?_, ?_⟩
            · rw [hstate, hbk]
              simp [storeAccount, putCandidate, updateBucket, hauto]
            · rw [hstate, hcands]
              cases hcs : containsSelfStakingBucket p.inMemCandidates act.bucketIndex <;>
                simp [hcs, hauto, storeAccount, putCandidate, updateBucket,
                  Candidate.addSelfStake, Candidate.addVote]

/-- Witness for C5: depositing to the non-auto-stake bucket `bkt5a` yields
`ErrInvalidBucketType`; depositing 30 to the auto-stake bucket `bkt5b` grows
its stake from 50 to 80 and replaces candidate 2's weighted vote. -/
theorem depositToStake_owner_and_bucket_type_witness :
    handleDepositToStake p5 actxW bctxW act5 s5a = some out5a ∧
    handleDepositToStake p5 actxW bctxW act5 s5b = some out5b ∧
    (out5a.receipt.status = ReceiptStatus.errInvalidBucketType ↔
      bkt5a.autoStake = false) ∧
    ((out5b.receipt.status = ReceiptStatus.errInvalidBucketType ↔
        bkt5b.autoStake = false) ∧
     (bkt5b.autoStake = true →
       out5b.state.buckets act5.bucketIndex =
         some { bkt5b with stakedAmount := bkt5b.stakedAmount + act5.amount } ∧
       (out5b.state.candidates cand5.owner).map Candidate.votes =
         some (cand5.votes -
           p5.calculateVoteWeight bkt5b
             (containsSelfStakingBucket p5.inMemCandidates act5.bucketIndex) +
           p5.calculateVoteWeight
             { bkt5b with stakedAmount := bkt5b.stakedAmount + act5.amount }
             (containsSelfStakingBucket p5.inMemCandidates act5.bucketIndex)))) :=
  ⟨rfl, rfl,
   (depositToStake_owner_and_bucket_type.2 p5 actxW bctxW act5 s5a bkt5a cand5 out5a
     (by decide) (by decide) (by decide) (by decide) rfl).1,
   depositToStake_owner_and_bucket_type.2 p5 actxW bctxW act5 s5b bkt5b cand5 out5b
     (by decide) (by decide) (by decide) (by decide) rfl⟩

/-! ### Claim C6 -/

/-- C6: the register scenario of spec §8 — caller balance 1000, registration
fee 10, intrinsic gas 1, gas price 1, amount 100, duration 7, no auto-stake.
After a successful `handleCandidateRegister` the caller's balance is
1000 - 100 - 10 - 1 = 889, the persisted candidate has `self_stake = 100`,
bucket 0 exists, and the reward pool holds the registration fee routed through
the deposit-gas hook plus the gas fee (handlers.go:471-534). -/
theorem candidateRegister_scenario :
    handleCandidateRegister pW actxW bctxW act6 sW = some regOut ∧
    (regOut.state.accounts 1).balance = 889 ∧
    (regOut.state.candidates 1).map Candidate.selfStake = some 100 ∧
    (regOut.state.buckets 0).isSome = true ∧
    regOut.state.rewardPool = 11 := by
  refine ⟨rfl, ?_, ?_, ?_, ?_⟩ <;> decide

end Staking

namespace Mpt

/-! ### Claim C8 -/

/-- C8: deleting a correct-length key that is absent from the trie fails with
`NotExist`, and the root hash is unchanged by the call
(merklepatriciatree.go:172-191). -/
theorem delete_absent_key (t : MerklePatriciaTree) (key : List Nat)
    (hlen : key.length = t.keyLength)
    (habs : t.root.entries.any (fun e => e.1 == key) = false) :
    (Delete t key).1 = some TrieError.errNotExist ∧
    (Delete t key).2.rootHash = t.rootHash := by
  simp [Delete, checkKeyType, hlen, nodeDelete, habs]

/-- Witness for C8: key `[1, 2]` is absent from `t8` (which holds `[1, 1]`);
deleting it reports `NotExist` and keeps root hash `[7]`. -/
theorem delete_absent_key_witness :
    (Delete t8 [1, 2]).1 = some TrieError.errNotExist ∧
    (Delete t8 [1, 2]).2.rootHash = t8.rootHash :=
  delete_absent_key t8 [1, 2] (by decide) (by decide)

/-! ### Claim C9 -/

/-- C9: `SetRootHash` with an empty or sentinel hash reinstalls the empty root
(so `IsEmpty` subsequently holds), and for every root hash reachable in the KV
store — a branch node stored under its own hash — `RootHash` returns exactly
that hash after `SetRootHash` (merklepatriciatree.go:135-151, 218-248; the
hypothesis on `emptyRootHash` is established by `Start`). -/
theorem setRootHash_contract (t : MerklePatriciaTree) (h : List Nat)
    (hwf : t.emptyRootHash = t.nodeHash newEmptyRootBranchNode) :
    ((h = [] ∨ h = t.emptyRootHash) →
      (SetRootHash t h).map IsEmpty = Except.ok true) ∧
    (∀ n, h ≠ [] → t.kvStore h = some n → n.kind = NodeKind.branchKind →
      t.nodeHash n = h →
      (SetRootHash t h).map RootHash = Except.ok h) := by
  constructor
  · intro hcase
    rcases hcase with hc | hc
    · subst hc
      simp [SetRootHash, setRootHash, IsEmpty, isEmptyRootHash, resetRoot, hwf, Except.map]
    · subst hc
      simp [SetRootHash, setRootHash, IsEmpty, isEmptyRootHash, resetRoot, hwf, Except.map]
  · intro n hne hkv hkind hhash
    by_cases hemp : isEmptyRootHash t h = true
    · have hh : h = t.emptyRootHash := by
        simpa [isEmptyRootHash] using hemp
      subst hh
      simp [SetRootHash, setRootHash, isEmptyRootHash, RootHash, resetRoot, ← hwf, Except.map]
    · have hcond : ¬((h.length = 0 || isEmptyRootHash t h) = true) := by
        simp only [Bool.or_eq_true, decide_eq_true_eq]
        push_neg
        exact ⟨fun hc => hne (List.length_eq_zero.mp hc), by simpa using hemp⟩
      simp only [SetRootHash, setRootHash]
      rw [if_neg hcond]
      simp [loadNode, hkv, hkind, RootHash, resetRoot, hhash, Except.map]

/-- Witness for C9: on `t9`, `SetRootHash []` reinstalls the empty root, and
`SetRootHash [1]` rebinds to `node9` (stored under its own hash `[1]`), after
which `RootHash` is `[1]`. -/
theorem setRootHash_contract_witness :
    (SetRootHash t9 []).map IsEmpty = Except.ok true ∧
    (SetRootHash t9 [1]).map RootHash = Except.ok [1] :=
  ⟨(setRootHash_contract t9 [] (by decide)).1 (Or.inl rfl),
   (setRootHash_contract t9 [1] (by decide)).2 node9 (by decide) (by decide)
     (by decide) (by decide)⟩

end Mpt

end IotexCore
